import Mathlib

/-
  Verification of eternal_chess.py (Garee/eternal-chess).

  The program perpetually plays random chess games: a timer-driven tick
  (`play_chess`) records finished games into a sqlite table (`chess_game`),
  broadcasts events over a socket, resets the board, and plays one random
  legal move per tick.

  The chess rules themselves come from the external python-chess library,
  which is not part of this repository. The Rules structure below models
  that library from the specification of the Rules Engine (§4.1): legal
  move generation, move application, terminal detection with an outcome.
  Everything else (`record_result`, the SQL counters, `get_state`,
  `play_chess`) is translated directly from eternal_chess.py.
-/

namespace EternalChess

/-- Modelled from the spec: the full terminal-outcome set of the external
chess library (checkmate for either side, stalemate, insufficient material,
seventyfive-move rule, fivefold repetition). -/
inductive Outcome
  | whiteWinsCheckmate
  | blackWinsCheckmate
  | stalemate
  | insufficientMaterial
  | seventyfiveMoves
  | fivefoldRepetition
deriving DecidableEq, Repr

/-- Modelled from the spec: the result string the library reports for a
finished game — "1-0" and "0-1" for checkmate, "1/2-1/2" for every
non-decisive terminal outcome. -/
def Outcome.result : Outcome → String
  | whiteWinsCheckmate => "1-0"
  | blackWinsCheckmate => "0-1"
  | _ => "1/2-1/2"

/-- The side that won a terminal outcome, none for the drawn outcomes. -/
def Outcome.winningSide : Outcome → Option String
  | whiteWinsCheckmate => some "white"
  | blackWinsCheckmate => some "black"
  | _ => none

/-- Modelled from the spec: the Rules Engine contract (§4.1), standing in
for the external python-chess library, which is not in this repository.
`Pos` is the board position type and `Move` the move type; `outcome p` is
`some o` exactly when the position is terminal (is_game_over). -/
structure Rules (Pos Move : Type) where
  init : Pos
  legalMoves : Pos → List Move
  applyMove : Pos → Move → Pos
  outcome : Pos → Option Outcome
  fen : Pos → String
  pgnMoves : List Move → String

/-- Modelled from the spec: the laws §4.1 states for the Rules Engine —
`legalMoves` is empty only at a terminal state, the initial position is not
terminal, and `legalMoves` returns a set (no duplicates). -/
structure Rules.Lawful {Pos Move : Type} (R : Rules Pos Move) : Prop where
  legal_nonempty : ∀ p, R.outcome p = none → R.legalMoves p ≠ []
  init_in_progress : R.outcome R.init = none
  legal_nodup : ∀ p, (R.legalMoves p).Nodup

/-- A chess.Board as the program uses it: the current position together
with the full move history (move_stack). Every board in the program is
obtained from the initial position by pushes and resets. -/
structure Board (Pos Move : Type) where
  pos : Pos
  moveStack : List Move
deriving DecidableEq, Repr

/-- chess.Board(): the fresh initial board. -/
def Board.fresh {Pos Move : Type} (R : Rules Pos Move) : Board Pos Move :=
  ⟨R.init, []⟩

/-- board.reset(): restore the initial position and clear the history. -/
def Board.reset {Pos Move : Type} (R : Rules Pos Move)
    (_ : Board Pos Move) : Board Pos Move :=
  ⟨R.init, []⟩

/-- board.push(move): apply a move and append it to the history. -/
def Board.push {Pos Move : Type} (R : Rules Pos Move)
    (b : Board Pos Move) (m : Move) : Board Pos Move :=
  ⟨R.applyMove b.pos m, b.moveStack ++ [m]⟩

/-- board.is_game_over(). -/
def Board.is_game_over {Pos Move : Type} (R : Rules Pos Move)
    (b : Board Pos Move) : Bool :=
  (R.outcome b.pos).isSome

/-- board.legal_moves as the list the program builds with list(...). -/
def Board.legal_moves {Pos Move : Type} (R : Rules Pos Move)
    (b : Board Pos Move) : List Move :=
  R.legalMoves b.pos

/-- board.fullmove_number. The library starts the counter at 1 and
increments it after each Black move, so for a board reached from the
initial position by pushes it equals plies / 2 + 1, where plies is the
length of the move history. -/
def Board.fullmove_number {Pos Move : Type}
    (b : Board Pos Move) : Nat :=
  b.moveStack.length / 2 + 1

/-- board.result(): the outcome string of a terminal board, "*" while the
game is in progress. -/
def Board.result {Pos Move : Type} (R : Rules Pos Move)
    (b : Board Pos Move) : String :=
  match R.outcome b.pos with
  | some o => o.result
  | none => "*"

/-- board.fen(). -/
def Board.fen {Pos Move : Type} (R : Rules Pos Move)
    (b : Board Pos Move) : String :=
  R.fen b.pos

/-- One row of the chess_game table, as inserted by insert_chess_game. -/
structure GameRecord where
  completion_date : String
  is_draw : Nat
  n_moves : Nat
  winner : Option String
  pgn : String
deriving DecidableEq, Repr

/-- get_n_of_games(): SELECT COUNT(*) FROM chess_game. -/
def get_n_of_games (db : List GameRecord) : Nat :=
  db.length

/-- get_n_white_wins(): SELECT COUNT(*) ... WHERE winner = "white". -/
def get_n_white_wins (db : List GameRecord) : Nat :=
  (db.filter (fun gr => gr.winner == some "white")).length

/-- get_n_black_wins(): SELECT COUNT(*) ... WHERE winner = "black". -/
def get_n_black_wins (db : List GameRecord) : Nat :=
  (db.filter (fun gr => gr.winner == some "black")).length

/-- get_n_draws(): SELECT COUNT(*) ... WHERE is_draw = 1. -/
def get_n_draws (db : List GameRecord) : Nat :=
  (db.filter (fun gr => gr.is_draw == 1)).length

/-- get_total_moves(): SELECT TOTAL(n_moves) FROM chess_game. Unlike SUM,
the TOTAL aggregate yields 0.0 rather than NULL on an empty table, which
the surrounding int(...) turns into the integer 0; on a table of integer
n_moves values it is exactly their sum. -/
def get_total_moves (db : List GameRecord) : Nat :=
  (db.map (fun gr => gr.n_moves)).sum

/-- The aggregate statistics dict returned by get_state(). -/
structure Stats where
  n_games : Nat
  n_white_wins : Nat
  n_black_wins : Nat
  n_draws : Nat
  n_moves : Nat
deriving DecidableEq, Repr

/-- get_state(): the statistics for all recorded games. -/
def get_state (db : List GameRecord) : Stats :=
  ⟨get_n_of_games db, get_n_white_wins db, get_n_black_wins db,
   get_n_draws db, get_total_moves db⟩

/-- configure_pgn(board): the PGN text of a finished game — six headers
(Round is the current game count plus one, read from the database) followed
by the movetext serialization of the move history. -/
def configure_pgn {Pos Move : Type} (R : Rules Pos Move)
    (db : List GameRecord) (now : String) (b : Board Pos Move) : String :=
  String.intercalate "\n"
    ["[Event \"Eternal Chess\"]",
     "[Site \"www.eternalchess.com\"]",
     "[Date \"" ++ now ++ "\"]",
     "[Round \"" ++ toString (get_n_of_games db + 1) ++ "\"]",
     "[White \"Random\"]",
     "[Black \"Random\"]",
     R.pgnMoves b.moveStack]

/-- record_result(board), up to the insert: the row it builds for the
chess_game table. `now` stands for datetime.now() formatted with
DATE_FORMAT. The caller appends this row to the table (the INSERT of
insert_chess_game). -/
def record_result {Pos Move : Type} (R : Rules Pos Move)
    (now : String) (db : List GameRecord) (b : Board Pos Move) : GameRecord :=
  let is_draw : Nat := if Board.result R b = "1/2-1/2" then 1 else 0
  let n_moves : Nat := Board.fullmove_number b
  let winner : Option String :=
    if Board.result R b = "1-0" then some "white" else some "black"
  let winner : Option String := if is_draw = 1 then none else winner
  let pgn : String := configure_pgn R db now b
  ⟨now, is_draw, n_moves, winner, pgn⟩

/-- A Python exception escaping one tick of play_chess. `storage` is a
sqlite error raised inside the insert of record_result; `emptyMoveRange`
is the ValueError randint(0, -1) raises when the legal-move list is empty
(it also covers a random draw outside the randint contract, which the
real randint never produces). -/
inductive TickError
  | storage
  | emptyMoveRange
deriving DecidableEq, Repr

/-- An event emitted on the socket during a tick. -/
inductive Event
  | game_over (stats : Stats)
  | move (fen : String)
deriving DecidableEq, Repr

/-- The observable result of one completed tick: the board left for the
next tick, the table contents, and the events emitted, in order. A
completed tick always reaches the final line of play_chess, which
schedules the next tick; a tick that ends in a TickError never does. -/
structure TickOutput (Pos Move : Type) where
  board : Board Pos Move
  db : List GameRecord
  events : List Event
deriving DecidableEq, Repr

/-- moves[randint(0, len(moves) - 1)]: the move-selection policy. The
random source is the explicit input `r`, the value randint returned;
randint(0, n - 1) is uniform over 0..n-1 inclusive when n ≥ 1 and raises
ValueError when n = 0, so under its contract r < moves.length and the
lookup yields some move. -/
def select_move {Move : Type} (moves : List Move) (r : Nat) : Option Move :=
  moves[r]?

/-- One tick of play_chess(board): if the game is over, record the result
(the insert succeeds exactly when storeOk is true; a failure raises and
aborts the tick), emit game_over with the freshly read statistics, and
reset the board; then — unconditionally — pick the r-th legal move, push
it, emit the move event, and schedule the next tick. -/
def play_chess {Pos Move : Type} (R : Rules Pos Move) (storeOk : Bool)
    (now : String) (r : Nat) (b : Board Pos Move) (db : List GameRecord) :
    Except TickError (TickOutput Pos Move) :=
  let finalized : Except TickError (Board Pos Move × List GameRecord × List Event) :=
    if Board.is_game_over R b then
      if storeOk then
        let db2 := db ++ [record_result R now db b]
        Except.ok (Board.reset R b, db2, [Event.game_over (get_state db2)])
      else Except.error TickError.storage
    else Except.ok (b, db, [])
  match finalized with
  | Except.error e => Except.error e
  | Except.ok (b1, db1, evs) =>
    match select_move (Board.legal_moves R b1) r with
    | none => Except.error TickError.emptyMoveRange
    | some m =>
      let b2 := Board.push R b1 m
      Except.ok ⟨b2, db1, evs ++ [Event.move (Board.fen R b2)]⟩

/-- A concrete instance of the Rules Engine contract, used to evaluate the
program on explicit inputs: positions count plies from the start, each
position before ply 4 offers two legal moves, and ply 4 is checkmate by
White (the shape of the fool-mate game, which ends after 4 plies with
fullmove_number 3). -/
def toy : Rules Nat Nat where
  init := 0
  legalMoves := fun p => if p < 4 then [0, 1] else []
  applyMove := fun p _ => p + 1
  outcome := fun p => if p < 4 then none else some Outcome.whiteWinsCheckmate
  fen := fun p => toString p
  pgnMoves := fun ms => toString ms.length

/-- A drawn variant of the toy game: ply 4 is a stalemate. -/
def toyDraw : Rules Nat Nat where
  init := 0
  legalMoves := fun p => if p < 4 then [0, 1] else []
  applyMove := fun p _ => p + 1
  outcome := fun p => if p < 4 then none else some Outcome.stalemate
  fen := fun p => toString p
  pgnMoves := fun ms => toString ms.length

/-- The toy game played to its end: four pushes from the fresh board. -/
def toyFinished : Board Nat Nat :=
  Board.push toy (Board.push toy (Board.push toy
    (Board.push toy (Board.fresh toy) 0) 0) 0) 0

/-- The drawn toy game played to its end. -/
def toyDrawFinished : Board Nat Nat :=
  Board.push toyDraw (Board.push toyDraw (Board.push toyDraw
    (Board.push toyDraw (Board.fresh toyDraw) 0) 0) 0) 0

theorem toy_lawful : Rules.Lawful toy := by
  constructor
  · intro p h
    by_cases hp : p < 4 <;> simp [toy, hp] at h ⊢
  · simp [toy]
  · intro p
    by_cases hp : p < 4 <;> simp [toy, hp]

theorem toyDraw_lawful : Rules.Lawful toyDraw := by
  constructor
  · intro p h
    by_cases hp : p < 4 <;> simp [toyDraw, hp] at h ⊢
  · simp [toyDraw]
  · intro p
    by_cases hp : p < 4 <;> simp [toyDraw, hp]

/-- C10: on an empty chess_game table, get_state succeeds with all-zero
counters — in particular the TOTAL aggregate behind get_total_moves yields
0 rather than NULL. -/
theorem C10_empty_stats : get_state [] = ⟨0, 0, 0, 0, 0⟩ ∧ get_total_moves [] = 0 := by
  exact ⟨rfl, rfl⟩

/-- C1, amended: the tick has no handler around the insert, so when the
insert fails on a finished game the StorageError propagates out of
play_chess — the game_over event is not emitted, the board is not reset,
and the line that schedules the next tick is never reached. -/
theorem C1_storage_error_propagates {Pos Move : Type} (R : Rules Pos Move)
    (now : String) (r : Nat) (b : Board Pos Move) (db : List GameRecord)
    (hterm : Board.is_game_over R b = true) :
    play_chess R false now r b db = Except.error TickError.storage := by
  simp [play_chess, hterm]

theorem C1_storage_error_propagates_witness :
    Board.is_game_over toy toyFinished = true ∧
    play_chess toy false "2026-01-01 00:00:00" 1 toyFinished [] =
      Except.error TickError.storage :=
  ⟨by decide,
   C1_storage_error_propagates toy "2026-01-01 00:00:00" 1 toyFinished [] (by decide)⟩

/-- C1, counterexample: on a concrete finished board with a failing store,
the tick propagates the StorageError instead of recovering — it produces
no completed tick output at all (no reset, no rescheduling). -/
theorem C1_cex :
    play_chess toy false "2026-01-01 00:00:01" 0 toyFinished [] =
      Except.error TickError.storage ∧
    (play_chess toy false "2026-01-01 00:00:01" 0 toyFinished []).toOption = none := by
  exact ⟨rfl, rfl⟩

/-- C2, amended: the persisted n_moves field is board.fullmove_number,
which for a game of p plies from the initial position is p / 2 + 1 — not
the ply count; the two differ for every game of at least 3 plies (every
chess game that can actually finish). -/
theorem C2_move_count_is_fullmove_number {Pos Move : Type} (R : Rules Pos Move)
    (now : String) (db : List GameRecord) (b : Board Pos Move)
    (h : 3 ≤ b.moveStack.length) :
    (record_result R now db b).n_moves = b.moveStack.length / 2 + 1 ∧
    (record_result R now db b).n_moves ≠ b.moveStack.length := by
  refine ⟨rfl, ?_⟩
  show b.moveStack.length / 2 + 1 ≠ b.moveStack.length
  omega

theorem C2_move_count_is_fullmove_number_witness :
    3 ≤ toyFinished.moveStack.length ∧
    (record_result toy "2026-01-01 00:00:02" [] toyFinished).n_moves =
      toyFinished.moveStack.length / 2 + 1 :=
  ⟨by decide,
   (C2_move_count_is_fullmove_number toy "2026-01-01 00:00:02" [] toyFinished (by decide)).1⟩

/-- C2, counterexample: the 4-ply toy game (the shape of the fastest
checkmate) is recorded with n_moves = 3, not the ply count 4. -/
theorem C2_cex :
    (record_result toy "2026-01-01 00:00:03" [] toyFinished).n_moves = 3 ∧
    toyFinished.moveStack.length = 4 ∧
    (record_result toy "2026-01-01 00:00:03" [] toyFinished).n_moves ≠
      toyFinished.moveStack.length := by
  exact ⟨by decide, by decide, by decide⟩

/-- C3, amended: the finalize branch of play_chess is not exclusive with
the move branch — a tick that sees a terminal state records the result,
emits game_over, resets, and then falls through to select and push one
legal move of the fresh board and emit a move event; only a tick that sees
a non-terminal state runs the move branch alone. -/
theorem C3_tick_branches {Pos Move : Type} (R : Rules Pos Move) (now : String)
    (r : Nat) (b : Board Pos Move) (db : List GameRecord) :
    (∀ _ : Board.is_game_over R b = true,
      ∀ h : r < (Board.legal_moves R (Board.reset R b)).length,
        play_chess R true now r b db =
          Except.ok ⟨Board.push R (Board.reset R b)
              ((Board.legal_moves R (Board.reset R b)).get ⟨r, h⟩),
            db ++ [record_result R now db b],
            [Event.game_over (get_state (db ++ [record_result R now db b])),
             Event.move (Board.fen R (Board.push R (Board.reset R b)
               ((Board.legal_moves R (Board.reset R b)).get ⟨r, h⟩)))]⟩) ∧
    (∀ _ : Board.is_game_over R b = false,
      ∀ h : r < (Board.legal_moves R b).length,
        play_chess R true now r b db =
          Except.ok ⟨Board.push R b ((Board.legal_moves R b).get ⟨r, h⟩),
            db,
            [Event.move (Board.fen R (Board.push R b
              ((Board.legal_moves R b).get ⟨r, h⟩)))]⟩) := by
  constructor
  · intro hterm h
    simp [play_chess, hterm, select_move, List.getElem?_eq_getElem h]
  · intro hterm h
    simp [play_chess, hterm, select_move, List.getElem?_eq_getElem h]

theorem C3_tick_branches_witness :
    Board.is_game_over toy (Board.fresh toy) = false ∧
    play_chess toy true "2026-01-01 00:00:04" 0 (Board.fresh toy) [] =
      Except.ok ⟨Board.push toy (Board.fresh toy)
          ((Board.legal_moves toy (Board.fresh toy)).get ⟨0, by decide⟩),
        [],
        [Event.move (Board.fen toy (Board.push toy (Board.fresh toy)
          ((Board.legal_moves toy (Board.fresh toy)).get ⟨0, by decide⟩)))]⟩ :=
  ⟨by decide,
   (C3_tick_branches toy "2026-01-01 00:00:04" 0 (Board.fresh toy) []).2 (by decide) (by decide)⟩

/-- C3, counterexample: a tick on a concrete finished board emits two
events (game_over and then a move) and leaves a board carrying one pushed
move — the terminal branch did not run alone and a move was applied in the
same tick. -/
theorem C3_cex :
    (play_chess toy true "2026-01-01 00:00:05" 0 toyFinished []).toOption.map
      (fun out => (out.events.length, out.board.moveStack)) = some (2, [0]) := by
  rfl

/-- C6, amended: immediately after the reset step of a finalizing tick the
board is the initial position with empty history, but the tick then falls
through and pushes one legal move, so the board a finalizing tick leaves
behind carries exactly one ply of history on the initial position. -/
theorem C6_reset_then_one_ply {Pos Move : Type} (R : Rules Pos Move)
    (now : String) (r : Nat) (b : Board Pos Move) (db : List GameRecord)
    (hterm : Board.is_game_over R b = true) :
    Board.reset R b = ⟨R.init, []⟩ ∧
    ∀ out : TickOutput Pos Move, play_chess R true now r b db = Except.ok out →
      ∃ m ∈ Board.legal_moves R (Board.reset R b),
        out.board = Board.push R (Board.reset R b) m ∧
        out.board.moveStack = [m] ∧
        out.board.pos = R.applyMove R.init m := by
  refine ⟨rfl, ?_⟩
  intro out hout
  simp only [play_chess, hterm, if_true] at hout
  rcases hsel : select_move (Board.legal_moves R (Board.reset R b)) r with _ | m
  · rw [hsel] at hout
    cases hout
  · rw [hsel] at hout
    cases hout
    refine ⟨m, ?_, rfl, ?_, rfl⟩
    · have := List.getElem?_mem (by simpa [select_move] using hsel)
      exact this
    · simp [Board.push, Board.reset]

theorem C6_reset_then_one_ply_witness :
    Board.is_game_over toy toyFinished = true ∧
    Board.reset toy toyFinished = ⟨toy.init, []⟩ :=
  ⟨by decide,
   (C6_reset_then_one_ply toy "2026-01-01 00:00:06" 0 toyFinished [] (by decide)).1⟩

/-- C6, counterexample: after a tick on a concrete finished board, the
resulting GameState does not have an empty move history — it holds the
single move played on the fresh board by the same tick. -/
theorem C6_cex :
    (play_chess toy true "2026-01-01 00:00:07" 0 toyFinished []).toOption.map
      (fun out => out.board.moveStack) = some [0] ∧
    some [(0 : Nat)] ≠ some ([] : List Nat) := by
  exact ⟨rfl, by decide⟩

/-- The board whose legal moves a tick consults for move selection: in a
finalizing tick the board has already been reset, otherwise it is the
incoming board. -/
def consultedBoard {Pos Move : Type} (R : Rules Pos Move)
    (b : Board Pos Move) : Board Pos Move :=
  if Board.is_game_over R b then Board.reset R b else b

theorem legal_moves_consulted_ne_nil {Pos Move : Type} (R : Rules Pos Move)
    (hR : Rules.Lawful R) (b : Board Pos Move) :
    Board.legal_moves R (consultedBoard R b) ≠ [] := by
  unfold consultedBoard
  rcases hterm : Board.is_game_over R b with _ | _
  · have hnone : R.outcome b.pos = none := by
      rcases hx : R.outcome b.pos with _ | o
      · rfl
      · rw [Board.is_game_over, hx] at hterm
        simp at hterm
    simpa [Board.legal_moves] using hR.legal_nonempty b.pos hnone
  · simpa [Board.legal_moves, Board.reset] using
      hR.legal_nonempty R.init hR.init_in_progress

/-- C7: under the Rules Engine laws the legal-move list consulted by a
tick is never empty — the board is either non-terminal or was just reset
to the (non-terminal) initial position — so every random draw within the
randint contract is in bounds, the selected move is a member of the
consulted legal-move list, and the tick never raises the empty-range
error: the illegal-move branch is unreachable. -/
theorem C7_selection_in_bounds {Pos Move : Type} (R : Rules Pos Move)
    (hR : Rules.Lawful R) (now : String) (b : Board Pos Move)
    (db : List GameRecord) :
    Board.legal_moves R (consultedBoard R b) ≠ [] ∧
    ∀ r, r < (Board.legal_moves R (consultedBoard R b)).length →
      play_chess R true now r b db ≠ Except.error TickError.emptyMoveRange ∧
      ∃ m, select_move (Board.legal_moves R (consultedBoard R b)) r = some m ∧
        m ∈ Board.legal_moves R (consultedBoard R b) ∧
        ∃ db1 evs, play_chess R true now r b db =
          Except.ok ⟨Board.push R (consultedBoard R b) m, db1, evs⟩ := by
  refine ⟨legal_moves_consulted_ne_nil R hR b, ?_⟩
  intro r h
  rcases hterm : Board.is_game_over R b with _ | _
  · have hcb : consultedBoard R b = b := by simp [consultedBoard, hterm]
    rw [hcb] at h ⊢
    refine ⟨?_, (Board.legal_moves R b).get ⟨r, h⟩, ?_,
      (Board.legal_moves R b).get_mem r h, db,
      [Event.move (Board.fen R (Board.push R b ((Board.legal_moves R b).get ⟨r, h⟩)))],
      ?_⟩ <;>
      simp [play_chess, hterm, select_move, List.getElem?_eq_getElem h]
  · have hcb : consultedBoard R b = Board.reset R b := by simp [consultedBoard, hterm]
    rw [hcb] at h ⊢
    refine ⟨?_, (Board.legal_moves R (Board.reset R b)).get ⟨r, h⟩, ?_,
      (Board.legal_moves R (Board.reset R b)).get_mem r h,
      db ++ [record_result R now db b],
      [Event.game_over (get_state (db ++ [record_result R now db b])),
       Event.move (Board.fen R (Board.push R (Board.reset R b)
         ((Board.legal_moves R (Board.reset R b)).get ⟨r, h⟩)))],
      ?_⟩ <;>
      simp [play_chess, hterm, select_move, List.getElem?_eq_getElem h]

theorem C7_selection_in_bounds_witness :
    Board.legal_moves toy (consultedBoard toy (Board.fresh toy)) ≠ [] :=
  (C7_selection_in_bounds toy toy_lawful "2026-01-01 00:00:08" (Board.fresh toy) []).1

/-- A record is well formed when it is marked a draw with no winner, or
marked decisive with one of the two side identifiers as winner. Every
record record_result builds is well formed. -/
def WellFormedRecord (gr : GameRecord) : Prop :=
  (gr.is_draw = 1 ∧ gr.winner = none) ∨
  (gr.is_draw = 0 ∧ (gr.winner = some "white" ∨ gr.winner = some "black"))

instance : DecidablePred WellFormedRecord := fun gr => by
  unfold WellFormedRecord
  infer_instance

/-- C4: every record the recorder produces falls in exactly one outcome
category, and over any table of such records the snapshot counters
partition the games: n_games equals white wins plus black wins plus
draws. -/
theorem C4_stats_partition :
    (∀ (Pos Move : Type) (R : Rules Pos Move) (now : String)
        (db : List GameRecord) (b : Board Pos Move),
      WellFormedRecord (record_result R now db b)) ∧
    (∀ db : List GameRecord, (∀ gr ∈ db, WellFormedRecord gr) →
      (get_state db).n_games =
        (get_state db).n_white_wins + (get_state db).n_black_wins +
          (get_state db).n_draws) := by
  constructor
  · intro Pos Move R now db b
    unfold WellFormedRecord record_result
    by_cases hd : Board.result R b = "1/2-1/2"
    · left
      simp [hd]
    · right
      by_cases hw : Board.result R b = "1-0" <;> simp [hd, hw]
  · intro db hwf
    induction db with
    | nil => rfl
    | cons g t ih =>
      have hg := hwf g (by simp)
      have iht := ih (fun gr hgr => hwf gr (by simp [hgr]))
      simp only [get_state, get_n_of_games, get_n_white_wins, get_n_black_wins,
        get_n_draws] at iht ⊢
      rcases hg with ⟨hd, hw⟩ | ⟨hd, hw | hw⟩ <;>
        · simp [List.filter_cons, hd, hw, List.length_cons]
          omega

theorem C4_stats_partition_witness :
    (∀ gr ∈ [record_result toy "2026-01-01 00:00:09" [] toyFinished,
             record_result toyDraw "2026-01-01 00:00:09" [] toyDrawFinished],
      WellFormedRecord gr) ∧
    (get_state [record_result toy "2026-01-01 00:00:09" [] toyFinished,
                record_result toyDraw "2026-01-01 00:00:09" [] toyDrawFinished]).n_games =
      (get_state [record_result toy "2026-01-01 00:00:09" [] toyFinished,
                  record_result toyDraw "2026-01-01 00:00:09" [] toyDrawFinished]).n_white_wins +
      (get_state [record_result toy "2026-01-01 00:00:09" [] toyFinished,
                  record_result toyDraw "2026-01-01 00:00:09" [] toyDrawFinished]).n_black_wins +
      (get_state [record_result toy "2026-01-01 00:00:09" [] toyFinished,
                  record_result toyDraw "2026-01-01 00:00:09" [] toyDrawFinished]).n_draws :=
  ⟨by decide, C4_stats_partition.2 _ (by decide)⟩

/-- C5: for a record written from a terminal board with outcome o, the
winner field is null exactly when is_draw is 1; is_draw reflects whether
the outcome has a winning side; and on a decisive outcome the winner is
that side — one of the two identifiers "white" and "black". -/
theorem C5_winner_matches_outcome {Pos Move : Type} (R : Rules Pos Move)
    (now : String) (db : List GameRecord) (b : Board Pos Move) (o : Outcome)
    (h : R.outcome b.pos = some o) :
    ((record_result R now db b).winner = none ↔
      (record_result R now db b).is_draw = 1) ∧
    ((record_result R now db b).is_draw =
      if o.winningSide = none then 1 else 0) ∧
    ((record_result R now db b).is_draw = 0 →
      (record_result R now db b).winner = o.winningSide ∧
      ((record_result R now db b).winner = some "white" ∨
       (record_result R now db b).winner = some "black")) := by
  have hres : Board.result R b = o.result := by
    simp [Board.result, h]
  cases o <;>
    simp [record_result, hres, Outcome.result, Outcome.winningSide]

theorem C5_winner_matches_outcome_witness :
    toyDraw.outcome toyDrawFinished.pos = some Outcome.stalemate ∧
    ((record_result toyDraw "2026-01-01 00:00:10" [] toyDrawFinished).winner = none ↔
      (record_result toyDraw "2026-01-01 00:00:10" [] toyDrawFinished).is_draw = 1) :=
  ⟨by decide,
   (C5_winner_matches_outcome toyDraw "2026-01-01 00:00:10" [] toyDrawFinished
     Outcome.stalemate (by decide)).1⟩

theorem get_n_of_games_append (db : List GameRecord) (gr : GameRecord) :
    get_n_of_games (db ++ [gr]) = get_n_of_games db + 1 := by
  simp [get_n_of_games]

theorem get_n_white_wins_append (db : List GameRecord) (gr : GameRecord) :
    get_n_white_wins (db ++ [gr]) =
      get_n_white_wins db + (if gr.winner = some "white" then 1 else 0) := by
  simp [get_n_white_wins, List.filter_append, List.filter_cons]
  split <;> simp_all

theorem get_n_black_wins_append (db : List GameRecord) (gr : GameRecord) :
    get_n_black_wins (db ++ [gr]) =
      get_n_black_wins db + (if gr.winner = some "black" then 1 else 0) := by
  simp [get_n_black_wins, List.filter_append, List.filter_cons]
  split <;> simp_all

theorem get_n_draws_append (db : List GameRecord) (gr : GameRecord) :
    get_n_draws (db ++ [gr]) =
      get_n_draws db + (if gr.is_draw = 1 then 1 else 0) := by
  simp [get_n_draws, List.filter_append, List.filter_cons]
  split <;> simp_all

theorem get_total_moves_append (db : List GameRecord) (gr : GameRecord) :
    get_total_moves (db ++ [gr]) = get_total_moves db + gr.n_moves := by
  simp [get_total_moves]

theorem record_result_winner_of_draw {Pos Move : Type} (R : Rules Pos Move)
    (now : String) (db : List GameRecord) (b : Board Pos Move)
    (h : (record_result R now db b).is_draw = 1) :
    (record_result R now db b).winner = none := by
  unfold record_result at h ⊢
  by_cases hd : Board.result R b = "1/2-1/2" <;> simp [hd] at h ⊢

theorem record_result_draw_of_winner {Pos Move : Type} (R : Rules Pos Move)
    (now : String) (db : List GameRecord) (b : Board Pos Move)
    (w : String) (h : (record_result R now db b).winner = some w) :
    (record_result R now db b).is_draw = 0 := by
  unfold record_result at h ⊢
  by_cases hd : Board.result R b = "1/2-1/2" <;> simp [hd] at h ⊢

/-- C8: a finalizing tick appends the new record to the table before it
emits the game_over event, whose statistics are read back from the table
that already holds the just-finished game: the game count is one higher,
the total move count grows by the n_moves of the record, and exactly the
counter of the record's outcome category grows by one while the other two
outcome counters are unchanged. -/
theorem C8_snapshot_includes_new_game {Pos Move : Type} (R : Rules Pos Move)
    (now : String) (r : Nat) (b : Board Pos Move) (db : List GameRecord)
    (hterm : Board.is_game_over R b = true)
    (h : r < (Board.legal_moves R (Board.reset R b)).length) :
    (play_chess R true now r b db).toOption.map
        (fun out => (out.db, out.events.head?)) =
      some (db ++ [record_result R now db b],
            some (Event.game_over (get_state (db ++ [record_result R now db b])))) ∧
    (get_state (db ++ [record_result R now db b])).n_games =
      (get_state db).n_games + 1 ∧
    (get_state (db ++ [record_result R now db b])).n_moves =
      (get_state db).n_moves + (record_result R now db b).n_moves ∧
    ((record_result R now db b).is_draw = 1 →
      (get_state (db ++ [record_result R now db b])).n_draws =
        (get_state db).n_draws + 1 ∧
      (get_state (db ++ [record_result R now db b])).n_white_wins =
        (get_state db).n_white_wins ∧
      (get_state (db ++ [record_result R now db b])).n_black_wins =
        (get_state db).n_black_wins) ∧
    ((record_result R now db b).winner = some "white" →
      (get_state (db ++ [record_result R now db b])).n_white_wins =
        (get_state db).n_white_wins + 1 ∧
      (get_state (db ++ [record_result R now db b])).n_black_wins =
        (get_state db).n_black_wins ∧
      (get_state (db ++ [record_result R now db b])).n_draws =
        (get_state db).n_draws) ∧
    ((record_result R now db b).winner = some "black" →
      (get_state (db ++ [record_result R now db b])).n_black_wins =
        (get_state db).n_black_wins + 1 ∧
      (get_state (db ++ [record_result R now db b])).n_white_wins =
        (get_state db).n_white_wins ∧
      (get_state (db ++ [record_result R now db b])).n_draws =
        (get_state db).n_draws) := by
  refine ⟨?_, ?_, ?_, ?_, ?_, ?_⟩
  · rcases hsel : select_move (Board.legal_moves R (Board.reset R b)) r with _ | m
    · rw [select_move, List.getElem?_eq_getElem h] at hsel
      cases hsel
    · simp [play_chess, hterm, hsel, Except.toOption]
  · simp [get_state, get_n_of_games_append]
  · simp [get_state, get_total_moves_append]
  · intro hd
    have hw := record_result_winner_of_draw R now db b hd
    simp [get_state, get_n_draws_append, get_n_white_wins_append,
      get_n_black_wins_append, hd, hw]
  · intro hw
    have hd := record_result_draw_of_winner R now db b "white" hw
    simp [get_state, get_n_draws_append, get_n_white_wins_append,
      get_n_black_wins_append, hd, hw]
  · intro hw
    have hd := record_result_draw_of_winner R now db b "black" hw
    simp [get_state, get_n_draws_append, get_n_white_wins_append,
      get_n_black_wins_append, hd, hw]

theorem C8_snapshot_includes_new_game_witness :
    Board.is_game_over toy toyFinished = true ∧
    0 < (Board.legal_moves toy (Board.reset toy toyFinished)).length ∧
    (get_state ([] ++ [record_result toy "2026-01-01 00:00:11" [] toyFinished])).n_games =
      (get_state []).n_games + 1 :=
  ⟨by decide, by decide,
   (C8_snapshot_includes_new_game toy "2026-01-01 00:00:11" 0 toyFinished []
     (by decide) (by decide)).2.1⟩

/-- C9: the selection policy is the r-th element of the legal-move list:
for every non-terminal position and every r within the randint contract
the policy returns element r, and under the Rules Engine laws (the legal
moves form a set) every legal move is returned for exactly one value of r
in 0..n-1 — the policy is a bijection between draws and legal moves. -/
theorem C9_uniform_selection {Pos Move : Type} (R : Rules Pos Move)
    (hR : Rules.Lawful R) (p : Pos) (_hnt : R.outcome p = none) :
    (∀ r, ∀ h : r < (R.legalMoves p).length,
      select_move (R.legalMoves p) r = some ((R.legalMoves p).get ⟨r, h⟩)) ∧
    (∀ m ∈ R.legalMoves p, ∃! r, r < (R.legalMoves p).length ∧
      select_move (R.legalMoves p) r = some m) := by
  constructor
  · intro r h
    simp [select_move, List.getElem?_eq_getElem h]
  · intro m hm
    rcases List.mem_iff_get.mp hm with ⟨i, hi⟩
    refine ⟨i.1, ⟨i.2, by simp [select_move, List.getElem?_eq_getElem i.2, ← hi]⟩, ?_⟩
    intro j ⟨hj, hjsel⟩
    have hjm : (R.legalMoves p).get ⟨j, hj⟩ = m := by
      have := hjsel
      rw [select_move, List.getElem?_eq_getElem hj] at this
      simpa using this
    have : (⟨j, hj⟩ : Fin (R.legalMoves p).length) = i := by
      apply (List.Nodup.get_inj_iff (hR.legal_nodup p)).mp
      rw [hjm, hi]
    exact congrArg Fin.val this

theorem C9_uniform_selection_witness :
    select_move (toy.legalMoves 0) 1 = some ((toy.legalMoves 0).get ⟨1, by decide⟩) :=
  (C9_uniform_selection toy toy_lawful 0 (by decide)).1 1 (by decide)

end EternalChess
